import Mathlib

/-!
Verification of the similarity-metric core of kikuchipy
(`kikuchipy/indexing/similarity_metrics.py`).

The development shallowly embeds the module:

* `MetricScope` and the static rank tables are copied from the class
  attributes of `SimilarityMetric` and `FlatSimilarityMetric`.
* n-dimensional arrays are modelled by `NDArray`: a shape (list of
  dimension sizes, row-major/C order as in numpy) together with the flat
  list of element values.  Element values are idealized as exact field
  elements (rationals or reals) rather than IEEE floats; `astype` and
  dask `rechunk` are therefore value-preserving and the laziness of dask
  arrays is modelled separately by a boolean tag (`TaggedArray`).
* fallible operations (`einsum` on mismatched ranks, `reshape` on
  mismatched sizes, the `_get_nav_shape` dict lookup) return
  `Option`/`Except` values.
* the in-place numpy updates `-=` and `/=` inside `_zero_mean` and
  `_normalize` write through views that share the caller's buffer; the
  functions `zero_mean_run` and `normalize_run` therefore return both
  the result pair and the final contents of the two argument buffers.
-/

namespace Kikuchipy

/-- The `MetricScope` enumeration of the source. -/
inductive MetricScope where
  | MANY_TO_MANY
  | ONE_TO_MANY
  | ONE_TO_ONE
  | MANY_TO_ONE
  deriving DecidableEq

/-- Rank-pair table mapping `(expt_ndim, sim_ndim)` to a scope:
`SimilarityMetric._EXPT_SIM_NDIM_TO_SCOPE` for `flat = false` and the
overriding `FlatSimilarityMetric._EXPT_SIM_NDIM_TO_SCOPE` for
`flat = true`.  A missing key (`dict.get` returning the falsy default)
is `none`. -/
def EXPT_SIM_NDIM_TO_SCOPE (flat : Bool) : ℕ × ℕ → Option MetricScope :=
  if flat then
    fun p =>
      match p with
      | (2, 2) => some MetricScope.MANY_TO_MANY
      | (1, 2) => some MetricScope.ONE_TO_MANY
      | (3, 1) => some MetricScope.MANY_TO_ONE
      | (1, 1) => some MetricScope.ONE_TO_ONE
      | _ => none
  else
    fun p =>
      match p with
      | (4, 3) => some MetricScope.MANY_TO_MANY
      | (2, 3) => some MetricScope.ONE_TO_MANY
      | (4, 2) => some MetricScope.MANY_TO_ONE
      | (2, 2) => some MetricScope.ONE_TO_ONE
      | _ => none

/-- Scope-to-required-rank table `_SCOPE_TO_EXPT_SIM_NDIM`, nested
(`flat = false`) and flattened (`flat = true`) variants. -/
def SCOPE_TO_EXPT_SIM_NDIM (flat : Bool) : MetricScope → ℕ × ℕ :=
  if flat then
    fun sc =>
      match sc with
      | MetricScope.MANY_TO_MANY => (2, 2)
      | MetricScope.ONE_TO_MANY => (1, 2)
      | MetricScope.MANY_TO_ONE => (3, 1)
      | MetricScope.ONE_TO_ONE => (1, 1)
  else
    fun sc =>
      match sc with
      | MetricScope.MANY_TO_MANY => (4, 3)
      | MetricScope.ONE_TO_MANY => (2, 3)
      | MetricScope.MANY_TO_ONE => (4, 2)
      | MetricScope.ONE_TO_ONE => (2, 2)

/-- Lower-scope table `SimilarityMetric._SCOPE_TO_LOWER_SCOPES`. -/
def SCOPE_TO_LOWER_SCOPES : MetricScope → List MetricScope :=
  fun sc =>
    match sc with
    | MetricScope.MANY_TO_MANY =>
        [MetricScope.MANY_TO_ONE, MetricScope.ONE_TO_MANY, MetricScope.ONE_TO_ONE]
    | MetricScope.ONE_TO_MANY => [MetricScope.ONE_TO_MANY, MetricScope.ONE_TO_ONE]
    | MetricScope.ONE_TO_ONE => []
    | MetricScope.MANY_TO_ONE => [MetricScope.MANY_TO_ONE, MetricScope.ONE_TO_ONE]

/-- `SimilarityMetric._is_compatible`, with the relevant instance fields
(`self.flat`, `self.scope`, `self._make_compatible_to_lower_scopes`)
passed explicitly.  For flat metrics the input ranks are first converted
(`expt_ndim //= 2`, `sim_ndim -= 1`; the Python `-1` for `sim_ndim = 0`
and the truncated `0 - 1 = 0` both miss every table key) and the lookup
uses the flat table. -/
def is_compatible (flat : Bool) (scope : MetricScope)
    (make_compatible_to_lower_scopes : Bool) (expt_ndim sim_ndim : ℕ) : Bool :=
  let expt_ndim2 := if flat then expt_ndim / 2 else expt_ndim
  let sim_ndim2 := if flat then sim_ndim - 1 else sim_ndim
  match EXPT_SIM_NDIM_TO_SCOPE flat (expt_ndim2, sim_ndim2) with
  | none => false
  | some inferred_scope =>
    if inferred_scope = scope then true
    else if make_compatible_to_lower_scopes then
      decide (inferred_scope ∈ SCOPE_TO_LOWER_SCOPES scope)
    else false

/-- Modelled from the claim wording (not from the source): the
compatibility decision described by the specification, namely a direct
lookup of the given rank pair in the representation's table, accepted
when the inferred scope equals the declared one or, under
auto-promotion, lies in its lower-scope set.  No rank conversion is
applied. -/
def claim_compatible (flat : Bool) (scope : MetricScope)
    (make_compatible_to_lower_scopes : Bool) (expt_ndim sim_ndim : ℕ) : Bool :=
  match EXPT_SIM_NDIM_TO_SCOPE flat (expt_ndim, sim_ndim) with
  | none => false
  | some inferred_scope =>
    decide (inferred_scope = scope) ||
      (make_compatible_to_lower_scopes &&
        decide (inferred_scope ∈ SCOPE_TO_LOWER_SCOPES scope))

/-- An n-dimensional array: shape and row-major (C-order) flat data. -/
structure NDArray (α : Type) where
  shape : List ℕ
  data : List α
  deriving DecidableEq

/-- `arr.ndim`. -/
def NDArray.ndim {α : Type} (a : NDArray α) : ℕ := a.shape.length

/-- `arr.size` (as numpy derives it, the product of the shape). -/
def NDArray.size {α : Type} (a : NDArray α) : ℕ := a.shape.prod

/-- numpy `squeeze`: drop all singleton axes (a view; data unchanged). -/
def squeezeArr {α : Type} (a : NDArray α) : NDArray α :=
  ⟨a.shape.filter (fun d => d != 1), a.data⟩

/-- `a[(np.newaxis,) * (n - a.ndim)]`: prepend singleton axes up to rank
`n` (the Python tuple is empty when `a.ndim ≥ n`).  The result is a view
sharing the argument's buffer. -/
def expandTo {α : Type} (n : ℕ) (a : NDArray α) : NDArray α :=
  ⟨List.replicate (n - a.ndim) 1 ++ a.shape, a.data⟩

/-- `_expand_dims_to_many_to_many`. -/
def expand_dims_to_many_to_many {α : Type} (expt sim : NDArray α) (flat : Bool) :
    NDArray α × NDArray α :=
  let target := SCOPE_TO_EXPT_SIM_NDIM flat MetricScope.MANY_TO_MANY
  (expandTo target.1 expt, expandTo target.2 sim)

section BlockOps

variable {α : Type} [Field α]

/-- Apply `f i x` to the element `x` at each flat index `i`. -/
def mapWithIdx (f : ℕ → α → α) (d : List α) : List α :=
  (List.range d.length).map fun i => f i (d.getD i 0)

/-- Sum of the contiguous length-`S` block number `p` of the flat data
(row-major layout: one block per leading/navigation multi-index). -/
def blockSum (S : ℕ) (d : List α) (p : ℕ) : α :=
  ∑ q ∈ Finset.range S, d.getD (p * S + q) 0

/-- Per-block mean, as in `arr.mean(axis=signal_axes, keepdims=True)`. -/
def blockMean (S : ℕ) (d : List α) (p : ℕ) : α := blockSum S d p / (S : α)

/-- `arr -= arr.mean(axis=signal_axes, keepdims=True)` on the flat data:
subtract from every element the mean of its block. -/
def zeroMeanData (S : ℕ) (d : List α) : List α :=
  mapWithIdx (fun i x => x - blockMean S d (i / S)) d

/-- Sum along axis 1 contributing to the element at flat index `i` of an
array of rank at least two: with `L` the length of axis 1 and `R` the
product of the axes after it, the row-major index decomposes as
`i = i0 * (L * R) + i1 * R + r` (`i1 < L`, `r < R`) and the reduction
runs over `i1`. -/
def axis1Sum (L R : ℕ) (d : List α) (i : ℕ) : α :=
  ∑ j ∈ Finset.range L, d.getD (i / (L * R) * (L * R) + j * R + i % R) 0

/-- Axis-1 mean, as in `arr.mean(axis=1, keepdims=True)` followed by
broadcasting. -/
def axis1Mean (L R : ℕ) (d : List α) (i : ℕ) : α := axis1Sum L R d i / (L : α)

/-- `arr -= arr.mean(axis=1, keepdims=True)` on the flat data of an
array of any rank at least two. -/
def zeroMeanAxis1Data (L R : ℕ) (d : List α) : List α :=
  mapWithIdx (fun i x => x - axis1Mean L R d i) d

/-- The buffer `_zero_mean` writes for its experimental argument `a`
(already promoted): `a -= a.mean(axis=1, keepdims=True)` for the flat
variant — the general row-major axis-1 reduction, faithful at every
rank the promotion can produce (rank 2 for ManyToMany/OneToMany, rank 3
for the flat ManyToOne table entry `(3, 1)`) — or
`a -= a.mean(axis=(2, 3), keepdims=True)` for the nested variant, whose
promoted rank-4 array reduces over its trailing two axes, one
contiguous block per pattern. -/
def exptZeroMeanData (flat : Bool) (a : NDArray α) : List α :=
  match flat with
  | true => zeroMeanAxis1Data (a.shape.getD 1 1) ((a.shape.drop 2).prod) a.data
  | false => zeroMeanData ((a.shape.drop 2).prod) a.data

/-- The buffer `_zero_mean` writes for its simulated argument:
`axis=1` (flat, promoted rank 2, where the inner size is 1) or
`axis=(1, 2)` on the promoted rank-3 nested array (its trailing two
axes). -/
def simZeroMeanData (flat : Bool) (a : NDArray α) : List α :=
  match flat with
  | true => zeroMeanAxis1Data (a.shape.getD 1 1) ((a.shape.drop 2).prod) a.data
  | false => zeroMeanData ((a.shape.drop 1).prod) a.data

/-- `_zero_mean`: promote both arrays to the ManyToMany ranks of the
representation, subtract the `expt_mean_axis`/`sim_mean_axis` means in
place (`1` if flat else `(2, 3)`, resp. `1` if flat else `(1, 2)`), and
squeeze when no singleton dimension occurred in either input.  The
in-place `-=` writes through views of the caller's buffers; the second
component of the result is the final contents of the two argument
buffers. -/
def zero_mean_run (expt sim : NDArray α) (flat : Bool) :
    (NDArray α × NDArray α) × List α × List α :=
  let squeeze : Bool := decide (1 ∉ expt.shape ++ sim.shape)
  let es := expand_dims_to_many_to_many expt sim flat
  let exptData := exptZeroMeanData flat es.1
  let simData := simZeroMeanData flat es.2
  ((if squeeze then
      (squeezeArr ⟨es.1.shape, exptData⟩, squeezeArr ⟨es.2.shape, simData⟩)
    else (⟨es.1.shape, exptData⟩, ⟨es.2.shape, simData⟩)),
   (exptData, simData))

/-- The pair returned by `_zero_mean`. -/
def zero_mean (expt sim : NDArray α) (flat : Bool) : NDArray α × NDArray α :=
  (zero_mean_run expt sim flat).1

/-- The caller's two argument arrays after `_zero_mean` returns: their
shapes are untouched but their buffers hold whatever the in-place
subtraction wrote. -/
def zero_mean_caller_after (expt sim : NDArray α) (flat : Bool) :
    NDArray α × NDArray α :=
  (⟨expt.shape, (zero_mean_run expt sim flat).2.1⟩,
   ⟨sim.shape, (zero_mean_run expt sim flat).2.2⟩)

end BlockOps

/-- `(arr ** 2).sum(axis=signal_axes, keepdims=True) ** 0.5`: the L2 norm
of block `p`. -/
noncomputable def blockNorm (S : ℕ) (d : List ℝ) (p : ℕ) : ℝ :=
  Real.sqrt (∑ q ∈ Finset.range S, d.getD (p * S + q) 0 ^ 2)

/-- `arr /= (arr ** 2).sum(axis=signal_axes, keepdims=True) ** 0.5` on the
flat data: divide every element by the L2 norm of its block. -/
noncomputable def normalizeData (S : ℕ) (d : List ℝ) : List ℝ :=
  mapWithIdx (fun i x => x / blockNorm S d (i / S)) d

/-- `(arr ** 2).sum(axis=1, keepdims=True) ** 0.5`: the axis-1 L2 norm
for the element at flat index `i`, same index decomposition as
`axis1Sum`. -/
noncomputable def axis1Norm (L R : ℕ) (d : List ℝ) (i : ℕ) : ℝ :=
  Real.sqrt (∑ j ∈ Finset.range L,
    d.getD (i / (L * R) * (L * R) + j * R + i % R) 0 ^ 2)

/-- `arr /= (arr ** 2).sum(axis=1, keepdims=True) ** 0.5` on the flat
data of an array of any rank at least two. -/
noncomputable def normalizeAxis1Data (L R : ℕ) (d : List ℝ) : List ℝ :=
  mapWithIdx (fun i x => x / axis1Norm L R d i) d

/-- The buffer `_normalize` writes for its experimental argument, with
the same axis dispatch as `exptZeroMeanData`. -/
noncomputable def exptNormalizeData (flat : Bool) (a : NDArray ℝ) : List ℝ :=
  match flat with
  | true => normalizeAxis1Data (a.shape.getD 1 1) ((a.shape.drop 2).prod) a.data
  | false => normalizeData ((a.shape.drop 2).prod) a.data

/-- The buffer `_normalize` writes for its simulated argument, with the
same axis dispatch as `simZeroMeanData`. -/
noncomputable def simNormalizeData (flat : Bool) (a : NDArray ℝ) : List ℝ :=
  match flat with
  | true => normalizeAxis1Data (a.shape.getD 1 1) ((a.shape.drop 2).prod) a.data
  | false => normalizeData ((a.shape.drop 1).prod) a.data

/-- `_normalize`: same promote/squeeze discipline and axes as
`_zero_mean`, dividing by the per-pattern L2 norm in place. -/
noncomputable def normalize_run (expt sim : NDArray ℝ) (flat : Bool) :
    (NDArray ℝ × NDArray ℝ) × List ℝ × List ℝ :=
  let squeeze : Bool := decide (1 ∉ expt.shape ++ sim.shape)
  let es := expand_dims_to_many_to_many expt sim flat
  let exptData := exptNormalizeData flat es.1
  let simData := simNormalizeData flat es.2
  ((if squeeze then
      (squeezeArr ⟨es.1.shape, exptData⟩, squeezeArr ⟨es.2.shape, simData⟩)
    else (⟨es.1.shape, exptData⟩, ⟨es.2.shape, simData⟩)),
   (exptData, simData))

/-- The pair returned by `_normalize`. -/
noncomputable def normalize (expt sim : NDArray ℝ) (flat : Bool) :
    NDArray ℝ × NDArray ℝ :=
  (normalize_run expt sim flat).1

/-- The caller's two argument arrays after `_normalize` returns. -/
noncomputable def normalize_caller_after (expt sim : NDArray ℝ) (flat : Bool) :
    NDArray ℝ × NDArray ℝ :=
  (⟨expt.shape, (normalize_run expt sim flat).2.1⟩,
   ⟨sim.shape, (normalize_run expt sim flat).2.2⟩)

/-- A numpy (`lazy = false`) or dask (`lazy = true`) array.  Elementwise
arithmetic, views and reductions keep the backend of their input; only
`da.einsum` (always dask) and `.compute()` change it. -/
structure TaggedArray where
  lazy : Bool
  arr : NDArray ℝ

/-- `_zero_mean` on backend-tagged arrays: each output keeps its input's
backend. -/
noncomputable def zero_mean_tagged (expt sim : TaggedArray) (flat : Bool) :
    TaggedArray × TaggedArray :=
  let p := zero_mean expt.arr sim.arr flat
  (⟨expt.lazy, p.1⟩, ⟨sim.lazy, p.2⟩)

/-- `_normalize` on backend-tagged arrays. -/
noncomputable def normalize_tagged (expt sim : TaggedArray) (flat : Bool) :
    TaggedArray × TaggedArray :=
  let p := normalize expt.arr sim.arr flat
  (⟨expt.lazy, p.1⟩, ⟨sim.lazy, p.2⟩)

/-- `da.einsum("ijkl,mkl->ijm", e, s)`: contract the two signal axes of
`e` against those of `s`.  `none` models the einsum shape error for
other ranks or mismatched signal shapes. -/
noncomputable def einsum_ijkl_mkl (e s : NDArray ℝ) : Option (NDArray ℝ) :=
  match e.shape, s.shape with
  | [ni, nj, sy, sx], [m, sy2, sx2] =>
    if sy2 = sy ∧ sx2 = sx then
      some ⟨[ni, nj, m],
        (List.range (ni * nj * m)).map fun idx =>
          ∑ k ∈ Finset.range sy, ∑ l ∈ Finset.range sx,
            e.data.getD (idx / m * (sy * sx) + k * sx + l) 0 *
              s.data.getD (idx % m * (sy * sx) + k * sx + l) 0⟩
    else none
  | _, _ => none

/-- `.compute()`: materialize a dask array into a numpy one. -/
def compute (a : TaggedArray) : TaggedArray := ⟨false, a.arr⟩

/-- `_zncc_einsum`: zero-mean, normalize, contract.  `da.einsum` yields a
dask array, which is computed iff both post-processing arrays are
numpy. -/
noncomputable def zncc_einsum (experimental simulated : TaggedArray) :
    Option TaggedArray :=
  let p1 := zero_mean_tagged experimental simulated false
  let p2 := normalize_tagged p1.1 p1.2 false
  match einsum_ijkl_mkl p2.1.arr p2.2.arr with
  | none => none
  | some z =>
    let zncc : TaggedArray := ⟨true, z⟩
    if p2.1.lazy = false ∧ p2.2.lazy = false then some (compute zncc)
    else some zncc

/-- `_ndp_einsum`: normalize (no mean subtraction), contract, compute iff
both post-processing arrays are numpy. -/
noncomputable def ndp_einsum (experimental simulated : TaggedArray) :
    Option TaggedArray :=
  let p2 := normalize_tagged experimental simulated false
  match einsum_ijkl_mkl p2.1.arr p2.2.arr with
  | none => none
  | some z =>
    let ndp : TaggedArray := ⟨true, z⟩
    if p2.1.lazy = false ∧ p2.2.lazy = false then some (compute ndp)
    else some ndp

/-- A comparison function; it may fail with an array-library error
message (e.g. a dimension mismatch inside the contraction). -/
def CompareFn (α : Type) : Type := NDArray α → NDArray α → Except String (NDArray α)

/-- Errors that a metric invocation can surface.  `incompatibleShape` is
the error the specification's taxonomy names `IncompatibleShapeError`. -/
inductive CallErr where
  | incompatibleShape
  | keyError
  | reshapeError
  | fnError (msg : String)
  deriving DecidableEq

/-- The metric wrapper: the fields of `SimilarityMetric`, with `flat`
recording which of the two variant classes the instance belongs to (the
`dtype_out` field is modelled away: values are exact). -/
structure SimilarityMetric (α : Type) where
  metric_func : CompareFn α
  sign : Int
  scope : MetricScope
  flat : Bool
  make_compatible_to_lower_scopes : Bool

/-- `make_similarity_metric`. -/
def make_similarity_metric {α : Type} (metric_func : CompareFn α)
    (greater_is_better : Bool) (scope : MetricScope) (flat : Bool)
    (make_compatible_to_lower_scopes : Bool) : SimilarityMetric α :=
  ⟨metric_func, if greater_is_better then 1 else -1, scope, flat,
    make_compatible_to_lower_scopes⟩

/-- `_get_nav_shape` (a dict lookup, `KeyError` off ranks 2/3/4). -/
def get_nav_shape {α : Type} (expt : NDArray α) : Option (List ℕ) :=
  match expt.ndim with
  | 2 => some []
  | 3 => some (expt.shape.take 1)
  | 4 => some (expt.shape.take 2)
  | _ => none

/-- `_get_sig_shape`: `expt.shape[-2:]`. -/
def get_sig_shape {α : Type} (expt : NDArray α) : List ℕ :=
  expt.shape.drop (expt.ndim - 2)

/-- `_get_number_of_simulated`. -/
def get_number_of_simulated {α : Type} (sim : NDArray α) : ℕ :=
  if sim.ndim = 3 then sim.shape.getD 0 1 else 1

/-- `arr.reshape((p, s))`: valid only when the size matches. -/
def reshape2 {α : Type} (a : NDArray α) (p s : ℕ) : Except CallErr (NDArray α) :=
  if p * s = a.size then Except.ok ⟨[p, s], a.data⟩
  else Except.error CallErr.reshapeError

/-- `arr.reshape((-1, s))`: the first dimension is inferred; fails when
`s` is zero or does not divide the size. -/
def reshape_infer {α : Type} (a : NDArray α) (s : ℕ) : Except CallErr (NDArray α) :=
  if 0 < s ∧ s ∣ a.size then Except.ok ⟨[a.size / s, s], a.data⟩
  else Except.error CallErr.reshapeError

/-- Wrap a comparison-function outcome into the invocation error type. -/
def liftFnErr {α : Type} : Except String (NDArray α) → Except CallErr (NDArray α)
  | Except.ok r => Except.ok r
  | Except.error msg => Except.error (CallErr.fnError msg)

/-- `_measure`: the nested variant calls `metric_func` directly; the flat
variant (`FlatSimilarityMetric._measure`) first reshapes the
experimental array to `(nav_flat_size, sig_flat_size)` and the simulated
one to `(-1, sig_flat_size)`. -/
def measure {α : Type} (m : SimilarityMetric α) (experimental simulated : NDArray α) :
    Except CallErr (NDArray α) :=
  if m.flat then
    match get_nav_shape experimental with
    | none => Except.error CallErr.keyError
    | some nav_shape =>
      let nav_flat_size := nav_shape.prod
      let sig_flat_size := (get_sig_shape experimental).prod
      match reshape2 experimental nav_flat_size sig_flat_size with
      | Except.error err => Except.error err
      | Except.ok expt2 =>
        match reshape_infer simulated sig_flat_size with
        | Except.error err => Except.error err
        | Except.ok sim2 => liftFnErr (m.metric_func expt2 sim2)
  else liftFnErr (m.metric_func experimental simulated)

/-- `_expand_dims_to_match_scope`. -/
def expand_dims_to_match_scope {α : Type} (m : SimilarityMetric α)
    (expt sim : NDArray α) : NDArray α × NDArray α :=
  let target := SCOPE_TO_EXPT_SIM_NDIM m.flat m.scope
  (expandTo target.1 expt, expandTo target.2 sim)

/-- `SimilarityMetric.__call__`: cast both inputs to the output dtype
(value-preserving here), rechunk dask inputs (a no-op on values),
optionally expand dims to match the scope, then measure and squeeze the
result.  No compatibility check is performed anywhere on this path. -/
def call {α : Type} (m : SimilarityMetric α) (experimental simulated : NDArray α) :
    Except CallErr (NDArray α) :=
  let es :=
    if m.make_compatible_to_lower_scopes then
      expand_dims_to_match_scope m experimental simulated
    else (experimental, simulated)
  (measure m es.1 es.2).map squeezeArr

theorem is_compatible_eq_claim (flat : Bool) (scope : MetricScope)
    (promote : Bool) (expt_ndim sim_ndim : ℕ) :
    is_compatible flat scope promote expt_ndim sim_ndim =
      claim_compatible flat scope promote
        (if flat then expt_ndim / 2 else expt_ndim)
        (if flat then sim_ndim - 1 else sim_ndim) := by
  unfold is_compatible claim_compatible
  cases h : EXPT_SIM_NDIM_TO_SCOPE flat
      (if flat then expt_ndim / 2 else expt_ndim,
        if flat then sim_ndim - 1 else sim_ndim) with
  | none => simp [h]
  | some inferred =>
    simp only [h]
    by_cases hsc : inferred = scope
    · simp [hsc]
    · by_cases hp : promote <;> simp [hsc, hp]

/-- C1 counterexample: a flattened ManyToMany metric without
auto-promotion, given the rank pair `(2, 2)`.  The flattened table maps
`(2, 2)` to ManyToMany, the declared scope, so the claim predicts the
check succeeds; `_is_compatible` first converts the pair to `(1, 1)`
(OneToOne) and returns `False`. -/
theorem C1_counterexample :
    is_compatible true MetricScope.MANY_TO_MANY false 2 2 = false ∧
      claim_compatible true MetricScope.MANY_TO_MANY false 2 2 = true := by
  decide

/-- C1 (amended): `_is_compatible` returns true iff the rank pair,
after the conversion `(expt_ndim // 2, sim_ndim - 1)` that flat metrics
apply first (nested metrics use the pair unchanged), maps via the
rank-pair table of the metric's representation to a scope that equals
the declared scope or, when auto-promotion is enabled, lies in the
declared scope's lower-scope set. -/
theorem C1_is_compatible_amended (flat : Bool) (scope : MetricScope)
    (promote : Bool) (expt_ndim sim_ndim : ℕ) :
    is_compatible flat scope promote expt_ndim sim_ndim =
      claim_compatible flat scope promote
        (if flat then expt_ndim / 2 else expt_ndim)
        (if flat then sim_ndim - 1 else sim_ndim) :=
  is_compatible_eq_claim flat scope promote expt_ndim sim_ndim

theorem liftFnErr_map {α : Type} (r : Except String (NDArray α))
    (g : NDArray α → NDArray α) :
    (liftFnErr r).map g = liftFnErr (r.map g) := by
  cases r <;> rfl

theorem liftFnErr_ne_incompatible {α : Type} (r : Except String (NDArray α)) :
    liftFnErr r ≠ Except.error CallErr.incompatibleShape := by
  cases r <;> simp [liftFnErr]

theorem measure_ne_incompatible {α : Type} (m : SimilarityMetric α)
    (e s : NDArray α) :
    measure m e s ≠ Except.error CallErr.incompatibleShape := by
  unfold measure
  by_cases hf : m.flat = true
  · simp only [hf, if_true]
    cases hnav : get_nav_shape e with
    | none => simp
    | some nav =>
      simp only
      unfold reshape2
      by_cases h1 : nav.prod * (get_sig_shape e).prod = e.size
      · rw [if_pos h1]
        unfold reshape_infer
        by_cases h2 : 0 < (get_sig_shape e).prod ∧ (get_sig_shape e).prod ∣ s.size
        · rw [if_pos h2]
          exact liftFnErr_ne_incompatible _
        · rw [if_neg h2]
          simp
      · rw [if_neg h1]
        simp
  · simp only [hf, if_false]
    exact liftFnErr_ne_incompatible _

theorem map_squeeze_ne_incompatible {α : Type} (r : Except CallErr (NDArray α))
    (h : r ≠ Except.error CallErr.incompatibleShape) :
    r.map squeezeArr ≠ Except.error CallErr.incompatibleShape := by
  cases r with
  | ok v => simp [Except.map]
  | error e => simpa [Except.map] using h

theorem nav_prod_mul_sig_prod {α : Type} (e : NDArray α) (nav : List ℕ)
    (h : get_nav_shape e = some nav) :
    nav.prod * (get_sig_shape e).prod = e.size := by
  unfold get_nav_shape at h
  unfold get_sig_shape NDArray.size
  split at h
  · rename_i h2
    rw [h2]
    cases h
    simp
  · rename_i h3
    rw [h3]
    cases h
    simpa using List.prod_take_mul_prod_drop e.shape 1
  · rename_i h4
    rw [h4]
    cases h
    simpa using List.prod_take_mul_prod_drop e.shape 2
  · cases h

/-- C10: for flat metrics the compatibility check divides the
experimental rank by two and decrements the simulated rank before the
flat-table lookup; consequently a flat ManyToOne metric rejects the
nested ManyToOne rank pair `(4, 2)` (converted to `(2, 1)`, absent from
the flat table) under every setting of auto-promotion, while `(6, 2)`
(converted to `(3, 1)`) is accepted. -/
theorem C10_flat_conversion :
    (∀ (scope : MetricScope) (promote : Bool) (expt_ndim sim_ndim : ℕ),
      is_compatible true scope promote expt_ndim sim_ndim =
        claim_compatible true scope promote (expt_ndim / 2) (sim_ndim - 1)) ∧
    (∀ promote : Bool,
      is_compatible true MetricScope.MANY_TO_ONE promote 4 2 = false) ∧
    (∀ promote : Bool,
      is_compatible true MetricScope.MANY_TO_ONE promote 6 2 = true) := by
  refine ⟨fun scope promote e s => ?_, by decide, by decide⟩
  simpa using is_compatible_eq_claim true scope promote e s

theorem mapWithIdx_length {α : Type} [Field α] (f : ℕ → α → α) (d : List α) :
    (mapWithIdx f d).length = d.length := by
  simp [mapWithIdx]

theorem getD_mapWithIdx {α : Type} [Field α] (f : ℕ → α → α) (d : List α) (i : ℕ) :
    (mapWithIdx f d).getD i 0 =
      if i < d.length then f i (d.getD i 0) else 0 := by
  by_cases h : i < d.length
  · rw [if_pos h, List.getD_eq_getElem _ 0 (by simpa [mapWithIdx_length] using h)]
    simp [mapWithIdx]
  · rw [if_neg h, List.getD_eq_default]
    simpa [mapWithIdx_length] using Nat.le_of_not_lt h

theorem zeroMeanData_length {α : Type} [Field α] (S : ℕ) (d : List α) :
    (zeroMeanData S d).length = d.length :=
  mapWithIdx_length _ _

theorem getD_zeroMeanData {α : Type} [Field α] (S : ℕ) (d : List α) (i : ℕ) :
    (zeroMeanData S d).getD i 0 =
      if i < d.length then d.getD i 0 - blockMean S d (i / S) else 0 :=
  getD_mapWithIdx _ _ _

theorem blockMean_zeroMeanData {α : Type} [Field α] [CharZero α] (S : ℕ)
    (d : List α) (P p : ℕ) (hlen : d.length = P * S) :
    blockMean S (zeroMeanData S d) p = 0 := by
  rcases Nat.eq_zero_or_pos S with hS | hS
  · subst hS
    simp [blockMean, blockSum]
  by_cases hp : p < P
  · have hin : ∀ q, q < S → p * S + q < d.length := by
      intro q hq
      calc p * S + q < p * S + S := by omega
        _ = (p + 1) * S := by ring
        _ ≤ P * S := Nat.mul_le_mul_right _ (by omega)
        _ = d.length := hlen.symm
    have hdiv : ∀ q, q < S → (p * S + q) / S = p := by
      intro q hq
      rw [Nat.add_comm, Nat.add_mul_div_right _ _ hS, Nat.div_eq_of_lt hq,
        Nat.zero_add]
    unfold blockMean blockSum
    have hcong : ∀ q ∈ Finset.range S,
        (zeroMeanData S d).getD (p * S + q) 0 =
          d.getD (p * S + q) 0 - blockMean S d p := by
      intro q hq
      rw [getD_zeroMeanData, if_pos (hin q (Finset.mem_range.mp hq)),
        hdiv q (Finset.mem_range.mp hq)]
    rw [Finset.sum_congr rfl hcong, Finset.sum_sub_distrib, Finset.sum_const,
      Finset.card_range, nsmul_eq_mul]
    unfold blockMean blockSum
    rw [mul_div_cancel₀ _ (by exact_mod_cast hS.ne' : (S : α) ≠ 0)]
    rw [sub_self, zero_div]
  · have hout : ∀ q, q < S → d.length ≤ p * S + q := by
      intro q hq
      calc d.length = P * S := hlen
        _ ≤ p * S := Nat.mul_le_mul_right _ (by omega)
        _ ≤ p * S + q := Nat.le_add_right _ _
    unfold blockMean blockSum
    have hcong : ∀ q ∈ Finset.range S,
        (zeroMeanData S d).getD (p * S + q) 0 = 0 := by
      intro q hq
      rw [List.getD_eq_default]
      rw [zeroMeanData_length]
      exact hout q (Finset.mem_range.mp hq)
    rw [Finset.sum_congr rfl hcong]
    simp

theorem zeroMeanData_idem {α : Type} [Field α] [CharZero α] (S : ℕ) (d : List α)
    (P : ℕ) (hlen : d.length = P * S) :
    zeroMeanData S (zeroMeanData S d) = zeroMeanData S d := by
  apply List.ext_getElem
  · simp [zeroMeanData_length]
  intro i h1 h2
  rw [← List.getD_eq_getElem _ 0 h1, ← List.getD_eq_getElem _ 0 h2,
    getD_zeroMeanData, if_pos h2, blockMean_zeroMeanData S d P _ hlen, sub_zero]

theorem expandTo_of_ndim_eq {α : Type} (n : ℕ) (a : NDArray α)
    (h : a.ndim = n) : expandTo n a = a := by
  simp [expandTo, h]

theorem expandTo_ndim_of_le {α : Type} (n : ℕ) (a : NDArray α)
    (h : a.ndim ≤ n) : (expandTo n a).ndim = n := by
  simp only [expandTo, NDArray.ndim, List.length_append, List.length_replicate]
  unfold NDArray.ndim at h
  omega

theorem filter_ne_one_of_not_mem {l : List ℕ} (h : 1 ∉ l) :
    l.filter (fun d => d != 1) = l :=
  List.filter_eq_self.mpr fun a ha =>
    bne_iff_ne.mpr fun he => h (he ▸ ha)

theorem filter_replicate_append {k : ℕ} {l : List ℕ} (h : 1 ∉ l) :
    (List.replicate k 1 ++ l).filter (fun d => d != 1) = l := by
  rw [List.filter_append, filter_ne_one_of_not_mem h]
  have : (List.replicate k 1).filter (fun d => d != 1) = [] := by
    apply List.filter_eq_nil_iff.mpr
    intro a ha
    rw [List.eq_of_mem_replicate ha]
    simp
  rw [this, List.nil_append]

/-- Characterization of `_zero_mean`: with the shorthand
`E = expandTo`, when no singleton axis occurs in either input the result
pair is squeezed back to the input shapes, otherwise it keeps the
promoted shapes; in both cases the data is the per-pattern zero-meaned
data of the promoted arrays. -/
theorem zero_mean_eq {α : Type} [Field α] (flat : Bool) (e s : NDArray α) :
    zero_mean e s flat =
      if (1 : ℕ) ∈ e.shape ++ s.shape then
        (⟨(expandTo (SCOPE_TO_EXPT_SIM_NDIM flat MetricScope.MANY_TO_MANY).1 e).shape,
            exptZeroMeanData flat
              (expandTo (SCOPE_TO_EXPT_SIM_NDIM flat MetricScope.MANY_TO_MANY).1 e)⟩,
         ⟨(expandTo (SCOPE_TO_EXPT_SIM_NDIM flat MetricScope.MANY_TO_MANY).2 s).shape,
            simZeroMeanData flat
              (expandTo (SCOPE_TO_EXPT_SIM_NDIM flat MetricScope.MANY_TO_MANY).2 s)⟩)
      else
        (⟨e.shape,
            exptZeroMeanData flat
              (expandTo (SCOPE_TO_EXPT_SIM_NDIM flat MetricScope.MANY_TO_MANY).1 e)⟩,
         ⟨s.shape,
            simZeroMeanData flat
              (expandTo (SCOPE_TO_EXPT_SIM_NDIM flat MetricScope.MANY_TO_MANY).2 s)⟩) := by
  simp only [zero_mean, zero_mean_run, expand_dims_to_many_to_many]
  by_cases h : (1 : ℕ) ∈ e.shape ++ s.shape
  · rw [if_neg (fun hd => (of_decide_eq_true hd) h), if_pos h]
  · rw [if_pos (decide_eq_true h), if_neg h]
    have he : (1 : ℕ) ∉ e.shape := fun hm => h (List.mem_append_left _ hm)
    have hs : (1 : ℕ) ∉ s.shape := fun hm => h (List.mem_append_right _ hm)
    unfold squeezeArr expandTo
    rw [Prod.mk.injEq]
    constructor
    · rw [NDArray.mk.injEq]
      exact ⟨filter_replicate_append he, rfl⟩
    · rw [NDArray.mk.injEq]
      exact ⟨filter_replicate_append hs, rfl⟩

/-- Characterization of `_normalize`: same shape discipline as
`_zero_mean`, with per-block L2 normalization of the data. -/
theorem normalize_eq (flat : Bool) (e s : NDArray ℝ) :
    normalize e s flat =
      if (1 : ℕ) ∈ e.shape ++ s.shape then
        (⟨(expandTo (SCOPE_TO_EXPT_SIM_NDIM flat MetricScope.MANY_TO_MANY).1 e).shape,
            exptNormalizeData flat
              (expandTo (SCOPE_TO_EXPT_SIM_NDIM flat MetricScope.MANY_TO_MANY).1 e)⟩,
         ⟨(expandTo (SCOPE_TO_EXPT_SIM_NDIM flat MetricScope.MANY_TO_MANY).2 s).shape,
            simNormalizeData flat
              (expandTo (SCOPE_TO_EXPT_SIM_NDIM flat MetricScope.MANY_TO_MANY).2 s)⟩)
      else
        (⟨e.shape,
            exptNormalizeData flat
              (expandTo (SCOPE_TO_EXPT_SIM_NDIM flat MetricScope.MANY_TO_MANY).1 e)⟩,
         ⟨s.shape,
            simNormalizeData flat
              (expandTo (SCOPE_TO_EXPT_SIM_NDIM flat MetricScope.MANY_TO_MANY).2 s)⟩) := by
  simp only [normalize, normalize_run, expand_dims_to_many_to_many]
  by_cases h : (1 : ℕ) ∈ e.shape ++ s.shape
  · rw [if_neg (fun hd => (of_decide_eq_true hd) h), if_pos h]
  · rw [if_pos (decide_eq_true h), if_neg h]
    have he : (1 : ℕ) ∉ e.shape := fun hm => h (List.mem_append_left _ hm)
    have hs : (1 : ℕ) ∉ s.shape := fun hm => h (List.mem_append_right _ hm)
    unfold squeezeArr expandTo
    rw [Prod.mk.injEq]
    constructor
    · rw [NDArray.mk.injEq]
      exact ⟨filter_replicate_append he, rfl⟩
    · rw [NDArray.mk.injEq]
      exact ⟨filter_replicate_append hs, rfl⟩

/-- C2 counterexample: `_zero_mean` on the single-element arrays of shape
`(1, 1)` holding the value 1.  The in-place subtraction writes the
zero-meaned value 0 through the promoted views into the caller's
buffers, so after the call the caller's arrays no longer hold their
original values. -/
theorem C2_counterexample :
    zero_mean_caller_after (⟨[1, 1], [1]⟩ : NDArray ℝ) ⟨[1, 1], [1]⟩ false ≠
      ((⟨[1, 1], [1]⟩ : NDArray ℝ), (⟨[1, 1], [1]⟩ : NDArray ℝ)) := by
  have hbuf : (zero_mean_run (⟨[1, 1], [1]⟩ : NDArray ℝ) ⟨[1, 1], [1]⟩ false).2.1 =
      [0] := by
    simp only [zero_mean_run, expand_dims_to_many_to_many, SCOPE_TO_EXPT_SIM_NDIM,
      expandTo, NDArray.ndim, exptZeroMeanData, simZeroMeanData, zeroMeanData,
      mapWithIdx, blockMean, blockSum]
    norm_num [List.range_succ, List.range_zero, List.getD, Finset.sum_range_one]
  intro h
  have h1 := congrArg (fun p => (Prod.fst p).data) h
  simp only [zero_mean_caller_after, hbuf] at h1
  exact absurd (List.head_eq_of_cons_eq h1) (by norm_num)

/-- C2 (amended): `_zero_mean` and `_normalize` compute their results
functionally but write them in place: after the call the caller's two
argument arrays keep their shapes while their buffers hold exactly the
returned (pre-squeeze) per-block zero-meaned, respectively normalized,
values.  (Dask inputs, whose arrays are immutable task graphs, are
rebound rather than mutated; the in-place semantics modelled here is
that of the in-memory numpy arrays.) -/
theorem C2_inplace_amended (expt sim : NDArray ℝ) (flat : Bool) :
    zero_mean_caller_after expt sim flat =
      (⟨expt.shape, (zero_mean expt sim flat).1.data⟩,
       ⟨sim.shape, (zero_mean expt sim flat).2.data⟩) ∧
    normalize_caller_after expt sim flat =
      (⟨expt.shape, (normalize expt sim flat).1.data⟩,
       ⟨sim.shape, (normalize expt sim flat).2.data⟩) := by
  constructor
  · simp only [zero_mean_caller_after, zero_mean, zero_mean_run]
    by_cases h : decide (1 ∉ expt.shape ++ sim.shape) = true
    · rw [if_pos h]
      rfl
    · rw [if_neg h]
  · simp only [normalize_caller_after, normalize, normalize_run]
    by_cases h : decide (1 ∉ expt.shape ++ sim.shape) = true
    · rw [if_pos h]
      rfl
    · rw [if_neg h]

/-- C3 counterexample: the compare function returning a rank-1 array
whose single axis records the experimental input's rank.  On two
rank-2 patterns, the ManyToMany metric with auto-promotion feeds it the
rank-4 promoted view and yields a result of shape `[4]`, while the
OneToOne metric built from the same function yields shape `[2]`: the
two results differ, so the promotion equivalence does not hold for
every compare function. -/
theorem C3_counterexample :
    call (make_similarity_metric (fun a _ => Except.ok ⟨[a.ndim], [0]⟩) true
        MetricScope.MANY_TO_MANY false true)
        (⟨[1, 1], [0]⟩ : NDArray ℚ) ⟨[1, 1], [0]⟩ = Except.ok ⟨[4], [0]⟩ ∧
    call (make_similarity_metric (fun a _ => Except.ok ⟨[a.ndim], [0]⟩) true
        MetricScope.ONE_TO_ONE false false)
        (⟨[1, 1], [0]⟩ : NDArray ℚ) ⟨[1, 1], [0]⟩ = Except.ok ⟨[2], [0]⟩ ∧
    (⟨[4], [0]⟩ : NDArray ℚ) ≠ ⟨[2], [0]⟩ := by
  refine ⟨rfl, rfl, by decide⟩

/-- C3 (amended): for a compare function that is promotion-invariant —
its squeezed outcome is unchanged when its two arguments gain the
leading singleton axes of the ManyToMany promotion — calling the
ManyToMany metric with auto-promotion on two rank-2 patterns returns
the same outcome as calling the OneToOne metric built from the same
compare function. -/
theorem C3_promotion_amended {α : Type} (f : CompareFn α) (e s : NDArray α)
    (he : e.ndim = 2) (hs : s.ndim = 2)
    (hf : (f (expandTo 4 e) (expandTo 3 s)).map squeezeArr =
      (f e s).map squeezeArr) :
    call (make_similarity_metric f true MetricScope.MANY_TO_MANY false true) e s =
      call (make_similarity_metric f true MetricScope.ONE_TO_ONE false false) e s := by
  show (liftFnErr (f (expandTo 4 e) (expandTo 3 s))).map squeezeArr =
    (liftFnErr (f e s)).map squeezeArr
  rw [liftFnErr_map, liftFnErr_map]
  exact congrArg liftFnErr hf

/-- C3 witness: the amended equivalence at a constant compare function
and concrete rank-2 inputs. -/
theorem C3_promotion_witness :
    call (make_similarity_metric (fun _ _ => Except.ok ⟨[1], [0]⟩) true
        MetricScope.MANY_TO_MANY false true)
        (⟨[1, 1], [0]⟩ : NDArray ℚ) ⟨[1, 1], [0]⟩ =
      call (make_similarity_metric (fun _ _ => Except.ok ⟨[1], [0]⟩) true
        MetricScope.ONE_TO_ONE false false) ⟨[1, 1], [0]⟩ ⟨[1, 1], [0]⟩ :=
  C3_promotion_amended (fun _ _ => Except.ok ⟨[1], [0]⟩) ⟨[1, 1], [0]⟩
    ⟨[1, 1], [0]⟩ rfl rfl rfl

/-- C4 counterexample: a nested ManyToMany metric without
auto-promotion, whose compare function is total, invoked on arrays of
ranks 1 and 2.  The rank pair is in no table entry, so `_is_compatible`
is false, yet the invocation returns a result: `__call__` performs no
compatibility check and raises no shape error. -/
theorem C4_counterexample :
    is_compatible false MetricScope.MANY_TO_MANY false
        (NDArray.ndim (⟨[3], [1, 2, 3]⟩ : NDArray ℚ))
        (NDArray.ndim (⟨[2, 2], [1, 2, 3, 4]⟩ : NDArray ℚ)) = false ∧
    call (⟨fun a _ => Except.ok a, 1, MetricScope.MANY_TO_MANY, false, false⟩ :
        SimilarityMetric ℚ) ⟨[3], [1, 2, 3]⟩ ⟨[2, 2], [1, 2, 3, 4]⟩ =
      Except.ok ⟨[3], [1, 2, 3]⟩ := by
  exact ⟨by decide, rfl⟩

/-- C4 (amended): shape compatibility is not enforced on the call path:
for every metric and every pair of input arrays, the invocation never
signals the incompatible-shape error — the only failures it surfaces
are the flat variant's rank lookup and reshape errors and whatever the
compare function itself raises.  `_is_compatible` is only an exposed
predicate that the call path never consults. -/
theorem C4_no_incompatible_error {α : Type} (m : SimilarityMetric α)
    (experimental simulated : NDArray α) :
    call m experimental simulated ≠ Except.error CallErr.incompatibleShape := by
  simp only [call]
  exact map_squeeze_ne_incompatible _ (measure_ne_incompatible _ _ _)

/-- C8: the nested `_measure` passes the two arrays directly to the
compare function, while the flat `_measure` reshapes the experimental
array to `(nav_flat_size, sig_flat_size)` — both sizes computed from
the experimental array — and the simulated one to
`(-1, sig_flat_size)` before calling the compare function. -/
theorem C8_measure_paths {α : Type} (f : CompareFn α) (sg : Int)
    (sc : MetricScope) (mc : Bool) (e s : NDArray α) (nav : List ℕ)
    (hnav : get_nav_shape e = some nav)
    (hsig : 0 < (get_sig_shape e).prod ∧ (get_sig_shape e).prod ∣ s.size) :
    measure ⟨f, sg, sc, false, mc⟩ e s = liftFnErr (f e s) ∧
    measure ⟨f, sg, sc, true, mc⟩ e s =
      liftFnErr (f ⟨[nav.prod, (get_sig_shape e).prod], e.data⟩
        ⟨[s.size / (get_sig_shape e).prod, (get_sig_shape e).prod], s.data⟩) := by
  constructor
  · rfl
  · unfold measure
    simp only [if_true, hnav]
    unfold reshape2 reshape_infer
    rw [if_pos (nav_prod_mul_sig_prod e nav hnav), if_pos hsig]

/-- C8 witness: the two measurement paths at a concrete compare
function, a rank-2 experimental array of signal size 6 and a simulated
array of size 12. -/
theorem C8_measure_paths_witness :
    measure ⟨fun a _ => Except.ok a, 1, MetricScope.MANY_TO_MANY, false, false⟩
        (⟨[2, 3], []⟩ : NDArray ℚ) ⟨[2, 6], []⟩ =
      liftFnErr (Except.ok ⟨[2, 3], []⟩) ∧
    measure ⟨fun a _ => Except.ok a, 1, MetricScope.MANY_TO_MANY, true, false⟩
        (⟨[2, 3], []⟩ : NDArray ℚ) ⟨[2, 6], []⟩ =
      liftFnErr (Except.ok ⟨[List.prod [], 6], []⟩) := by
  have h := C8_measure_paths (fun a _ => Except.ok (a : NDArray ℚ)) 1
    MetricScope.MANY_TO_MANY false ⟨[2, 3], []⟩ ⟨[2, 6], []⟩ [] rfl (by decide)
  exact ⟨h.1, h.2⟩

/-- C9: for both concrete metrics the result, when the contraction is
defined, is an in-memory (eager) array iff both inputs were in-memory;
as soon as either input is a dask (lazy) array the result stays lazy. -/
theorem C9_laziness (e s : TaggedArray) :
    (zncc_einsum e s).map TaggedArray.lazy =
      (zncc_einsum e s).map (fun _ => e.lazy || s.lazy) ∧
    (ndp_einsum e s).map TaggedArray.lazy =
      (ndp_einsum e s).map (fun _ => e.lazy || s.lazy) := by
  constructor
  · simp only [zncc_einsum, zero_mean_tagged, normalize_tagged]
    cases einsum_ijkl_mkl (normalize (zero_mean e.arr s.arr false).1
        (zero_mean e.arr s.arr false).2 false).1
        (normalize (zero_mean e.arr s.arr false).1
          (zero_mean e.arr s.arr false).2 false).2 with
    | none => rfl
    | some z =>
      by_cases hc : e.lazy = false ∧ s.lazy = false
      · simp [hc.1, hc.2, compute]
      · simp only [hc, if_false, Option.map_some]
        cases he : e.lazy <;> cases hs : s.lazy <;> simp_all
  · simp only [ndp_einsum, normalize_tagged]
    cases einsum_ijkl_mkl (normalize e.arr s.arr false).1
        (normalize e.arr s.arr false).2 with
    | none => rfl
    | some z =>
      by_cases hc : e.lazy = false ∧ s.lazy = false
      · simp [hc.1, hc.2, compute]
      · simp only [hc, if_false, Option.map_some]
        cases he : e.lazy <;> cases hs : s.lazy <;> simp_all

theorem normalizeData_length (S : ℕ) (d : List ℝ) :
    (normalizeData S d).length = d.length :=
  mapWithIdx_length _ _

theorem getD_normalizeData (S : ℕ) (d : List ℝ) (i : ℕ) :
    (normalizeData S d).getD i 0 =
      if i < d.length then d.getD i 0 / blockNorm S d (i / S) else 0 :=
  getD_mapWithIdx _ _ _

theorem getD_normalizeData_block (S : ℕ) (d : List ℝ) (p t : ℕ) (ht : t < S) :
    (normalizeData S d).getD (p * S + t) 0 =
      d.getD (p * S + t) 0 / blockNorm S d p := by
  rw [getD_normalizeData]
  have hS : 0 < S := lt_of_le_of_lt (Nat.zero_le _) ht
  have hdiv : (p * S + t) / S = p := by
    rw [Nat.add_comm, Nat.add_mul_div_right _ _ hS, Nat.div_eq_of_lt ht,
      Nat.zero_add]
  by_cases h : p * S + t < d.length
  · rw [if_pos h, hdiv]
  · rw [if_neg h, List.getD_eq_default _ _ (Nat.le_of_not_lt h), zero_div]

theorem normalizeData_sq_sum_le_one (S : ℕ) (d : List ℝ) (p : ℕ) :
    ∑ t ∈ Finset.range S, (normalizeData S d).getD (p * S + t) 0 ^ 2 ≤ 1 := by
  have hA : (0 : ℝ) ≤ ∑ q ∈ Finset.range S, d.getD (p * S + q) 0 ^ 2 :=
    Finset.sum_nonneg fun q _ => sq_nonneg _
  have hsq : ∀ t ∈ Finset.range S,
      (normalizeData S d).getD (p * S + t) 0 ^ 2 =
        d.getD (p * S + t) 0 ^ 2 /
          (∑ q ∈ Finset.range S, d.getD (p * S + q) 0 ^ 2) := by
    intro t ht
    rw [getD_normalizeData_block S d p t (Finset.mem_range.mp ht), div_pow,
      blockNorm, Real.sq_sqrt hA]
  rw [Finset.sum_congr rfl hsq, ← Finset.sum_div]
  exact div_self_le_one _

theorem sum_range_mul_eq (K L : ℕ) (f : ℕ → ℝ) :
    ∑ k ∈ Finset.range K, ∑ l ∈ Finset.range L, f (k * L + l) =
      ∑ t ∈ Finset.range (K * L), f t := by
  induction K with
  | zero => simp
  | succ n ih =>
    rw [Finset.sum_range_succ, ih, Nat.succ_mul, Finset.range_eq_Ico,
      ← Finset.sum_Ico_consecutive f (Nat.zero_le (n * L))
        (Nat.le_add_right (n * L) L),
      ← Finset.range_eq_Ico, Finset.sum_Ico_eq_sum_range]
    simp

theorem inner_block_abs_le_one (S : ℕ) (dE dS : List ℝ) (p q : ℕ) :
    |∑ t ∈ Finset.range S, (normalizeData S dE).getD (p * S + t) 0 *
        (normalizeData S dS).getD (q * S + t) 0| ≤ 1 := by
  rw [← sq_le_one_iff_abs_le_one]
  have hcs := Finset.sum_mul_sq_le_sq_mul_sq (Finset.range S)
    (fun t => (normalizeData S dE).getD (p * S + t) 0)
    (fun t => (normalizeData S dS).getD (q * S + t) 0)
  have h1 := normalizeData_sq_sum_le_one S dE p
  have h2 := normalizeData_sq_sum_le_one S dS q
  have hn2 : (0 : ℝ) ≤
      ∑ t ∈ Finset.range S, (normalizeData S dS).getD (q * S + t) 0 ^ 2 :=
    Finset.sum_nonneg fun _ _ => sq_nonneg _
  refine le_trans hcs ?_
  calc (∑ t ∈ Finset.range S, (normalizeData S dE).getD (p * S + t) 0 ^ 2) *
        ∑ t ∈ Finset.range S, (normalizeData S dS).getD (q * S + t) 0 ^ 2 ≤
      1 * ∑ t ∈ Finset.range S, (normalizeData S dS).getD (q * S + t) 0 ^ 2 :=
        mul_le_mul_of_nonneg_right h1 hn2
    _ = ∑ t ∈ Finset.range S, (normalizeData S dS).getD (q * S + t) 0 ^ 2 :=
        one_mul _
    _ ≤ 1 := h2

theorem getD_nonneg_of_nonneg (d : List ℝ) (hd : ∀ v ∈ d, 0 ≤ v) (i : ℕ) :
    0 ≤ d.getD i 0 := by
  by_cases h : i < d.length
  · rw [List.getD_eq_getElem _ 0 h]
    exact hd _ (List.getElem_mem h)
  · rw [List.getD_eq_default _ _ (Nat.le_of_not_lt h)]

theorem normalizeData_getD_nonneg (S : ℕ) (d : List ℝ)
    (hd : ∀ v ∈ d, 0 ≤ v) (i : ℕ) :
    0 ≤ (normalizeData S d).getD i 0 := by
  rw [getD_normalizeData]
  by_cases h : i < d.length
  · rw [if_pos h]
    exact div_nonneg (getD_nonneg_of_nonneg d hd i)
      (Real.sqrt_nonneg _)
  · rw [if_neg h]

/-- `_zero_mean` on nested inputs that already carry the ManyToMany
ranks 4 and 3: the expansion and the squeeze are both identities on the
shapes, and the mean axes `(2, 3)`/`(1, 2)` are the trailing two. -/
theorem zero_mean_nested_of_ranks_eq {α : Type} [Field α] (e s : NDArray α)
    (he : e.ndim = 4) (hs : s.ndim = 3) :
    zero_mean e s false =
      (⟨e.shape, zeroMeanData ((e.shape.drop 2).prod) e.data⟩,
       ⟨s.shape, zeroMeanData ((s.shape.drop 1).prod) s.data⟩) := by
  have he2 : e.ndim = (SCOPE_TO_EXPT_SIM_NDIM false MetricScope.MANY_TO_MANY).1 := he
  have hs2 : s.ndim = (SCOPE_TO_EXPT_SIM_NDIM false MetricScope.MANY_TO_MANY).2 := hs
  rw [zero_mean_eq, expandTo_of_ndim_eq _ _ he2, expandTo_of_ndim_eq _ _ hs2,
    ite_self]
  rfl

/-- `_normalize` on nested inputs that already carry the ManyToMany
ranks 4 and 3. -/
theorem normalize_nested_of_ranks_eq (e s : NDArray ℝ)
    (he : e.ndim = 4) (hs : s.ndim = 3) :
    normalize e s false =
      (⟨e.shape, normalizeData ((e.shape.drop 2).prod) e.data⟩,
       ⟨s.shape, normalizeData ((s.shape.drop 1).prod) s.data⟩) := by
  have he2 : e.ndim = (SCOPE_TO_EXPT_SIM_NDIM false MetricScope.MANY_TO_MANY).1 := he
  have hs2 : s.ndim = (SCOPE_TO_EXPT_SIM_NDIM false MetricScope.MANY_TO_MANY).2 := hs
  rw [normalize_eq, expandTo_of_ndim_eq _ _ he2, expandTo_of_ndim_eq _ _ hs2,
    ite_self]
  rfl

/-- C7: on inputs that already have the ManyToMany ranks of their
representation (nested ranks 4 and 3, flattened ranks 2 and 2), the
promote-then-squeeze discipline of `_zero_mean` and `_normalize`
preserves the rank of both outputs, whether or not a singleton
dimension occurs anywhere in either shape. -/
theorem C7_rank_preserved (flat : Bool) (expt sim : NDArray ℝ)
    (he : expt.ndim = (SCOPE_TO_EXPT_SIM_NDIM flat MetricScope.MANY_TO_MANY).1)
    (hs : sim.ndim = (SCOPE_TO_EXPT_SIM_NDIM flat MetricScope.MANY_TO_MANY).2) :
    ((zero_mean expt sim flat).1.ndim = expt.ndim ∧
      (zero_mean expt sim flat).2.ndim = sim.ndim) ∧
    ((normalize expt sim flat).1.ndim = expt.ndim ∧
      (normalize expt sim flat).2.ndim = sim.ndim) := by
  rw [zero_mean_eq, normalize_eq, expandTo_of_ndim_eq _ _ he,
    expandTo_of_ndim_eq _ _ hs]
  by_cases h : (1 : ℕ) ∈ expt.shape ++ sim.shape
  · rw [if_pos h, if_pos h]
    exact ⟨⟨rfl, rfl⟩, ⟨rfl, rfl⟩⟩
  · rw [if_neg h, if_neg h]
    exact ⟨⟨rfl, rfl⟩, ⟨rfl, rfl⟩⟩

/-- C7 witness: rank preservation at concrete nested ManyToMany-shaped
arrays that do contain singleton dimensions. -/
theorem C7_rank_preserved_witness :
    ((zero_mean (⟨[1, 2, 1, 2], []⟩ : NDArray ℝ) ⟨[3, 1, 2], []⟩ false).1.ndim =
        NDArray.ndim (⟨[1, 2, 1, 2], []⟩ : NDArray ℝ) ∧
      (zero_mean (⟨[1, 2, 1, 2], []⟩ : NDArray ℝ) ⟨[3, 1, 2], []⟩ false).2.ndim =
        NDArray.ndim (⟨[3, 1, 2], []⟩ : NDArray ℝ)) ∧
    ((normalize (⟨[1, 2, 1, 2], []⟩ : NDArray ℝ) ⟨[3, 1, 2], []⟩ false).1.ndim =
        NDArray.ndim (⟨[1, 2, 1, 2], []⟩ : NDArray ℝ) ∧
      (normalize (⟨[1, 2, 1, 2], []⟩ : NDArray ℝ) ⟨[3, 1, 2], []⟩ false).2.ndim =
        NDArray.ndim (⟨[3, 1, 2], []⟩ : NDArray ℝ)) :=
  C7_rank_preserved false ⟨[1, 2, 1, 2], []⟩ ⟨[3, 1, 2], []⟩ rfl rfl

theorem expandTo_of_le_ndim {α : Type} (n : ℕ) (a : NDArray α)
    (h : n ≤ a.ndim) : expandTo n a = a := by
  simp [expandTo, Nat.sub_eq_zero_of_le h]

theorem le_expandTo_ndim {α : Type} (n : ℕ) (a : NDArray α) :
    n ≤ (expandTo n a).ndim := by
  simp only [expandTo, NDArray.ndim, List.length_append, List.length_replicate]
  omega

theorem prod_eq_headD_mul (sh : List ℕ) (h : 2 ≤ sh.length) :
    sh.prod = sh.headD 1 * (sh.getD 1 1 * (sh.drop 2).prod) := by
  rcases sh with _ | ⟨a, rest⟩
  · simp at h
  rcases rest with _ | ⟨b, t⟩
  · simp at h
  rfl

theorem zeroMeanAxis1Data_length {α : Type} [Field α] (L R : ℕ) (d : List α) :
    (zeroMeanAxis1Data L R d).length = d.length :=
  mapWithIdx_length _ _

theorem getD_zeroMeanAxis1Data {α : Type} [Field α] (L R : ℕ) (d : List α)
    (i : ℕ) :
    (zeroMeanAxis1Data L R d).getD i 0 =
      if i < d.length then d.getD i 0 - axis1Mean L R d i else 0 :=
  getD_mapWithIdx _ _ _

theorem axis1Mean_zeroMeanAxis1Data {α : Type} [Field α] [CharZero α]
    (L R : ℕ) (d : List α) (P : ℕ) (hlen : d.length = P * (L * R))
    (i : ℕ) (hi : i < d.length) :
    axis1Mean L R (zeroMeanAxis1Data L R d) i = 0 := by
  have hLR : 0 < L * R := by
    rcases Nat.eq_zero_or_pos (L * R) with h0 | h0
    · rw [hlen, h0, Nat.mul_zero] at hi
      omega
    · exact h0
  have hR : 0 < R := by
    rcases Nat.eq_zero_or_pos R with h0 | h0
    · rw [h0, Nat.mul_zero] at hLR
      omega
    · exact h0
  have hL : 0 < L := by
    rcases Nat.eq_zero_or_pos L with h0 | h0
    · rw [h0, Nat.zero_mul] at hLR
      omega
    · exact h0
  have hq : i / (L * R) < P := by
    rw [Nat.div_lt_iff_lt_mul hLR]
    calc i < d.length := hi
      _ = P * (L * R) := hlen
  have hr : i % R < R := Nat.mod_lt _ hR
  have hsmall : ∀ j, j < L → j * R + i % R < L * R := by
    intro j hj
    calc j * R + i % R < j * R + R := by omega
      _ = (j + 1) * R := by ring
      _ ≤ L * R := Nat.mul_le_mul_right _ (by omega)
  have hidx_lt : ∀ j, j < L →
      i / (L * R) * (L * R) + j * R + i % R < d.length := by
    intro j hj
    calc i / (L * R) * (L * R) + j * R + i % R
        = i / (L * R) * (L * R) + (j * R + i % R) := by omega
      _ < i / (L * R) * (L * R) + L * R := by
          have := hsmall j hj
          omega
      _ = (i / (L * R) + 1) * (L * R) := by ring
      _ ≤ P * (L * R) := Nat.mul_le_mul_right _ (by omega)
      _ = d.length := hlen.symm
  have hdivj : ∀ j, j < L →
      (i / (L * R) * (L * R) + j * R + i % R) / (L * R) = i / (L * R) := by
    intro j hj
    have hform : i / (L * R) * (L * R) + j * R + i % R =
        (j * R + i % R) + i / (L * R) * (L * R) := by ring
    rw [hform, Nat.add_mul_div_right _ _ hLR,
      Nat.div_eq_of_lt (hsmall j hj), Nat.zero_add]
  have hmodj : ∀ j, j < L →
      (i / (L * R) * (L * R) + j * R + i % R) % R = i % R := by
    intro j hj
    have hform : i / (L * R) * (L * R) + j * R + i % R =
        i % R + (i / (L * R) * L + j) * R := by ring
    rw [hform, Nat.add_mul_mod_self_right, Nat.mod_eq_of_lt hr]
  have hmean_same : ∀ j, j < L →
      axis1Mean L R d (i / (L * R) * (L * R) + j * R + i % R) =
        axis1Mean L R d i := by
    intro j hj
    unfold axis1Mean axis1Sum
    rw [hdivj j hj, hmodj j hj]
  unfold axis1Mean axis1Sum
  have hterms : ∀ j ∈ Finset.range L,
      (zeroMeanAxis1Data L R d).getD
          (i / (L * R) * (L * R) + j * R + i % R) 0 =
        d.getD (i / (L * R) * (L * R) + j * R + i % R) 0 -
          axis1Mean L R d i := by
    intro j hj
    rw [getD_zeroMeanAxis1Data, if_pos (hidx_lt j (Finset.mem_range.mp hj)),
      hmean_same j (Finset.mem_range.mp hj)]
  rw [Finset.sum_congr rfl hterms, Finset.sum_sub_distrib, Finset.sum_const,
    Finset.card_range, nsmul_eq_mul]
  unfold axis1Mean axis1Sum
  rw [mul_div_cancel₀ _ (by exact_mod_cast hL.ne' : (L : α) ≠ 0)]
  rw [sub_self, zero_div]

theorem zeroMeanAxis1Data_idem {α : Type} [Field α] [CharZero α]
    (L R : ℕ) (d : List α) (P : ℕ) (hlen : d.length = P * (L * R)) :
    zeroMeanAxis1Data L R (zeroMeanAxis1Data L R d) = zeroMeanAxis1Data L R d := by
  apply List.ext_getElem
  · simp [zeroMeanAxis1Data_length]
  intro i h1 h2
  have hi2 : i < d.length := by
    rw [← zeroMeanAxis1Data_length L R d]
    exact h2
  rw [← List.getD_eq_getElem _ 0 h1, ← List.getD_eq_getElem _ 0 h2,
    getD_zeroMeanAxis1Data, if_pos h2,
    axis1Mean_zeroMeanAxis1Data L R d P hlen i hi2, sub_zero]

/-- C6: `_zero_mean` is idempotent (over exact real arithmetic): for
well-formed inputs of every supported scope of either representation —
for flat metrics at any rank (including the flattened ManyToOne pair with
a rank-3 experimental array), for nested metrics at ranks up to the
ManyToMany targets — applying it to its own output returns the output
unchanged, since every pattern of the output already has mean zero along
the reduced axes. -/
theorem C6_zero_mean_idempotent (flat : Bool) (expt sim : NDArray ℝ)
    (hwe : expt.data.length = expt.shape.prod)
    (hws : sim.data.length = sim.shape.prod)
    (he : flat = false → expt.ndim ≤ 4)
    (hs : flat = false → sim.ndim ≤ 3) :
    zero_mean (zero_mean expt sim flat).1 (zero_mean expt sim flat).2 flat =
      zero_mean expt sim flat := by
  cases flat with
  | false =>
    have hlenE : expt.data.length =
        ((expandTo (SCOPE_TO_EXPT_SIM_NDIM false MetricScope.MANY_TO_MANY).1
            expt).shape.take 2).prod *
        ((expandTo (SCOPE_TO_EXPT_SIM_NDIM false MetricScope.MANY_TO_MANY).1
            expt).shape.drop 2).prod := by
      rw [List.prod_take_mul_prod_drop, hwe]
      simp [expandTo]
    have hlenS : sim.data.length =
        ((expandTo (SCOPE_TO_EXPT_SIM_NDIM false MetricScope.MANY_TO_MANY).2
            sim).shape.take 1).prod *
        ((expandTo (SCOPE_TO_EXPT_SIM_NDIM false MetricScope.MANY_TO_MANY).2
            sim).shape.drop 1).prod := by
      rw [List.prod_take_mul_prod_drop, hws]
      simp [expandTo]
    by_cases hq : (1 : ℕ) ∈ expt.shape ++ sim.shape
    · have hq2 : (1 : ℕ) ∈
          (expandTo (SCOPE_TO_EXPT_SIM_NDIM false MetricScope.MANY_TO_MANY).1
            expt).shape ++
          (expandTo (SCOPE_TO_EXPT_SIM_NDIM false MetricScope.MANY_TO_MANY).2
            sim).shape := by
        rcases List.mem_append.mp hq with h1 | h1
        · exact List.mem_append.mpr (Or.inl (by simp [expandTo, h1]))
        · exact List.mem_append.mpr (Or.inr (by simp [expandTo, h1]))
      have hnd1 : (⟨(expandTo (SCOPE_TO_EXPT_SIM_NDIM false
          MetricScope.MANY_TO_MANY).1 expt).shape,
          exptZeroMeanData false (expandTo (SCOPE_TO_EXPT_SIM_NDIM false
            MetricScope.MANY_TO_MANY).1 expt)⟩ : NDArray ℝ).ndim =
          (SCOPE_TO_EXPT_SIM_NDIM false MetricScope.MANY_TO_MANY).1 :=
        expandTo_ndim_of_le _ _ (he rfl)
      have hnd2 : (⟨(expandTo (SCOPE_TO_EXPT_SIM_NDIM false
          MetricScope.MANY_TO_MANY).2 sim).shape,
          simZeroMeanData false (expandTo (SCOPE_TO_EXPT_SIM_NDIM false
            MetricScope.MANY_TO_MANY).2 sim)⟩ : NDArray ℝ).ndim =
          (SCOPE_TO_EXPT_SIM_NDIM false MetricScope.MANY_TO_MANY).2 :=
        expandTo_ndim_of_le _ _ (hs rfl)
      rw [zero_mean_eq false expt sim, if_pos hq]
      dsimp only
      rw [zero_mean_eq, if_pos hq2, expandTo_of_ndim_eq _ _ hnd1,
        expandTo_of_ndim_eq _ _ hnd2]
      refine Prod.ext ?_ ?_ <;> dsimp only [exptZeroMeanData, simZeroMeanData]
      · rw [NDArray.mk.injEq]
        exact ⟨rfl, zeroMeanData_idem _ _ _ hlenE⟩
      · rw [NDArray.mk.injEq]
        exact ⟨rfl, zeroMeanData_idem _ _ _ hlenS⟩
    · rw [zero_mean_eq false expt sim, if_neg hq]
      dsimp only
      rw [zero_mean_eq, if_neg hq]
      refine Prod.ext ?_ ?_ <;> dsimp only [exptZeroMeanData, simZeroMeanData]
      · rw [NDArray.mk.injEq]
        exact ⟨rfl, zeroMeanData_idem _ _ _ hlenE⟩
      · rw [NDArray.mk.injEq]
        exact ⟨rfl, zeroMeanData_idem _ _ _ hlenS⟩
  | true =>
    have hlenE : expt.data.length =
        (expandTo (SCOPE_TO_EXPT_SIM_NDIM true MetricScope.MANY_TO_MANY).1
            expt).shape.headD 1 *
        ((expandTo (SCOPE_TO_EXPT_SIM_NDIM true MetricScope.MANY_TO_MANY).1
            expt).shape.getD 1 1 *
          ((expandTo (SCOPE_TO_EXPT_SIM_NDIM true MetricScope.MANY_TO_MANY).1
            expt).shape.drop 2).prod) := by
      rw [hwe, ← prod_eq_headD_mul
        ((expandTo (SCOPE_TO_EXPT_SIM_NDIM true MetricScope.MANY_TO_MANY).1
          expt).shape) (le_expandTo_ndim _ _)]
      simp [expandTo]
    have hlenS : sim.data.length =
        (expandTo (SCOPE_TO_EXPT_SIM_NDIM true MetricScope.MANY_TO_MANY).2
            sim).shape.headD 1 *
        ((expandTo (SCOPE_TO_EXPT_SIM_NDIM true MetricScope.MANY_TO_MANY).2
            sim).shape.getD 1 1 *
          ((expandTo (SCOPE_TO_EXPT_SIM_NDIM true MetricScope.MANY_TO_MANY).2
            sim).shape.drop 2).prod) := by
      rw [hws, ← prod_eq_headD_mul
        ((expandTo (SCOPE_TO_EXPT_SIM_NDIM true MetricScope.MANY_TO_MANY).2
          sim).shape) (le_expandTo_ndim _ _)]
      simp [expandTo]
    by_cases hq : (1 : ℕ) ∈ expt.shape ++ sim.shape
    · have hq2 : (1 : ℕ) ∈
          (expandTo (SCOPE_TO_EXPT_SIM_NDIM true MetricScope.MANY_TO_MANY).1
            expt).shape ++
          (expandTo (SCOPE_TO_EXPT_SIM_NDIM true MetricScope.MANY_TO_MANY).2
            sim).shape := by
        rcases List.mem_append.mp hq with h1 | h1
        · exact List.mem_append.mpr (Or.inl (by simp [expandTo, h1]))
        · exact List.mem_append.mpr (Or.inr (by simp [expandTo, h1]))
      have hnd1 : (SCOPE_TO_EXPT_SIM_NDIM true MetricScope.MANY_TO_MANY).1 ≤
          (⟨(expandTo (SCOPE_TO_EXPT_SIM_NDIM true
            MetricScope.MANY_TO_MANY).1 expt).shape,
            exptZeroMeanData true (expandTo (SCOPE_TO_EXPT_SIM_NDIM true
              MetricScope.MANY_TO_MANY).1 expt)⟩ : NDArray ℝ).ndim :=
        le_expandTo_ndim _ _
      have hnd2 : (SCOPE_TO_EXPT_SIM_NDIM true MetricScope.MANY_TO_MANY).2 ≤
          (⟨(expandTo (SCOPE_TO_EXPT_SIM_NDIM true
            MetricScope.MANY_TO_MANY).2 sim).shape,
            simZeroMeanData true (expandTo (SCOPE_TO_EXPT_SIM_NDIM true
              MetricScope.MANY_TO_MANY).2 sim)⟩ : NDArray ℝ).ndim :=
        le_expandTo_ndim _ _
      rw [zero_mean_eq true expt sim, if_pos hq]
      dsimp only
      rw [zero_mean_eq, if_pos hq2, expandTo_of_le_ndim _ _ hnd1,
        expandTo_of_le_ndim _ _ hnd2]
      refine Prod.ext ?_ ?_ <;> dsimp only [exptZeroMeanData, simZeroMeanData]
      · rw [NDArray.mk.injEq]
        exact ⟨rfl, zeroMeanAxis1Data_idem _ _ _ _ hlenE⟩
      · rw [NDArray.mk.injEq]
        exact ⟨rfl, zeroMeanAxis1Data_idem _ _ _ _ hlenS⟩
    · rw [zero_mean_eq true expt sim, if_neg hq]
      dsimp only
      rw [zero_mean_eq, if_neg hq]
      refine Prod.ext ?_ ?_ <;> dsimp only [exptZeroMeanData, simZeroMeanData]
      · rw [NDArray.mk.injEq]
        exact ⟨rfl, zeroMeanAxis1Data_idem _ _ _ _ hlenE⟩
      · rw [NDArray.mk.injEq]
        exact ⟨rfl, zeroMeanAxis1Data_idem _ _ _ _ hlenS⟩

/-- C6 witness: idempotence at concrete flat inputs with a rank-3
experimental array (the flattened ManyToOne scope). -/
theorem C6_zero_mean_idempotent_witness :
    zero_mean (zero_mean (⟨[2, 2, 2], [1, 2, 3, 4, 5, 6, 7, 8]⟩ : NDArray ℝ)
        ⟨[2, 2], [5, 6, 7, 8]⟩ true).1
      (zero_mean (⟨[2, 2, 2], [1, 2, 3, 4, 5, 6, 7, 8]⟩ : NDArray ℝ)
        ⟨[2, 2], [5, 6, 7, 8]⟩ true).2 true =
      zero_mean (⟨[2, 2, 2], [1, 2, 3, 4, 5, 6, 7, 8]⟩ : NDArray ℝ)
        ⟨[2, 2], [5, 6, 7, 8]⟩ true :=
  C6_zero_mean_idempotent true ⟨[2, 2, 2], [1, 2, 3, 4, 5, 6, 7, 8]⟩
    ⟨[2, 2], [5, 6, 7, 8]⟩ (by decide) (by decide)
    (fun h => absurd h (by decide)) (fun h => absurd h (by decide))

theorem einsum_mem_entry (I J M K L : ℕ) (dE dS : List ℝ) (z : NDArray ℝ)
    (hz : einsum_ijkl_mkl ⟨[I, J, K, L], dE⟩ ⟨[M, K, L], dS⟩ = some z)
    (x : ℝ) (hx : x ∈ z.data) :
    ∃ p q : ℕ, x = ∑ t ∈ Finset.range (K * L),
      dE.getD (p * (K * L) + t) 0 * dS.getD (q * (K * L) + t) 0 := by
  simp only [einsum_ijkl_mkl] at hz
  rw [if_pos ⟨trivial, trivial⟩] at hz
  injection hz with hz2
  subst hz2
  dsimp only at hx
  obtain ⟨idx, hidx, rfl⟩ := List.mem_map.mp hx
  refine ⟨idx / M, idx % M, ?_⟩
  rw [← sum_range_mul_eq K L (fun t => dE.getD (idx / M * (K * L) + t) 0 *
    dS.getD (idx % M * (K * L) + t) 0)]
  exact Finset.sum_congr rfl fun k _ => Finset.sum_congr rfl fun l _ => by
    rw [Nat.add_assoc, Nat.add_assoc]

/-- C5: every value produced by the zncc metric lies in `[-1, 1]`, and
for inputs whose values are all non-negative every value produced by
the ndp metric lies in `[0, 1]` (over exact real arithmetic; a
zero-norm block normalizes to zeros under the zero-division convention
and contributes the value 0, inside both ranges). -/
theorem C5_zncc_ndp_bounds (ed sd : List ℝ) (be bs : Bool) (I J M K L : ℕ) :
    (∀ z, zncc_einsum ⟨be, ⟨[I, J, K, L], ed⟩⟩ ⟨bs, ⟨[M, K, L], sd⟩⟩ = some z →
      ∀ x ∈ z.arr.data, -1 ≤ x ∧ x ≤ 1) ∧
    ((∀ v ∈ ed, (0 : ℝ) ≤ v) → (∀ v ∈ sd, (0 : ℝ) ≤ v) →
      ∀ z, ndp_einsum ⟨be, ⟨[I, J, K, L], ed⟩⟩ ⟨bs, ⟨[M, K, L], sd⟩⟩ = some z →
        ∀ x ∈ z.arr.data, 0 ≤ x ∧ x ≤ 1) := by
  have hdropE : (List.drop 2 ([I, J, K, L] : List ℕ)).prod = K * L := by
    rw [show List.drop 2 ([I, J, K, L] : List ℕ) = [K, L] from rfl,
      List.prod_cons, List.prod_cons, List.prod_nil, mul_one]
  have hdropS : (List.drop 1 ([M, K, L] : List ℕ)).prod = K * L := by
    rw [show List.drop 1 ([M, K, L] : List ℕ) = [K, L] from rfl,
      List.prod_cons, List.prod_cons, List.prod_nil, mul_one]
  have harr : normalize
      (zero_mean (⟨[I, J, K, L], ed⟩ : NDArray ℝ) ⟨[M, K, L], sd⟩ false).1
      (zero_mean (⟨[I, J, K, L], ed⟩ : NDArray ℝ) ⟨[M, K, L], sd⟩ false).2
      false =
      ((⟨[I, J, K, L], normalizeData (K * L) (zeroMeanData (K * L) ed)⟩ :
          NDArray ℝ),
       (⟨[M, K, L], normalizeData (K * L) (zeroMeanData (K * L) sd)⟩ :
          NDArray ℝ)) := by
    rw [zero_mean_nested_of_ranks_eq (⟨[I, J, K, L], ed⟩ : NDArray ℝ)
      ⟨[M, K, L], sd⟩ rfl rfl]
    dsimp only
    rw [hdropE, hdropS]
    rw [normalize_nested_of_ranks_eq
      (⟨[I, J, K, L], zeroMeanData (K * L) ed⟩ : NDArray ℝ)
      ⟨[M, K, L], zeroMeanData (K * L) sd⟩ rfl rfl]
    dsimp only
    rw [hdropE, hdropS]
  have harr2 : normalize (⟨[I, J, K, L], ed⟩ : NDArray ℝ)
      ⟨[M, K, L], sd⟩ false =
      ((⟨[I, J, K, L], normalizeData (K * L) ed⟩ : NDArray ℝ),
       (⟨[M, K, L], normalizeData (K * L) sd⟩ : NDArray ℝ)) := by
    rw [normalize_nested_of_ranks_eq (⟨[I, J, K, L], ed⟩ : NDArray ℝ)
      ⟨[M, K, L], sd⟩ rfl rfl]
    dsimp only
    rw [hdropE, hdropS]
  constructor
  · intro z hz x hx
    simp only [zncc_einsum, zero_mean_tagged, normalize_tagged] at hz
    rw [harr] at hz
    dsimp only at hz
    cases hein : einsum_ijkl_mkl
        (⟨[I, J, K, L], normalizeData (K * L) (zeroMeanData (K * L) ed)⟩ :
          NDArray ℝ)
        ⟨[M, K, L], normalizeData (K * L) (zeroMeanData (K * L) sd)⟩ with
    | none =>
      rw [hein] at hz
      exact absurd hz (by simp)
    | some z2 =>
      rw [hein] at hz
      have hzarr : z.arr = z2 := by
        dsimp only at hz
        split at hz <;> injection hz with h2 <;> rw [← h2] <;> rfl
      obtain ⟨p, q, rfl⟩ := einsum_mem_entry I J M K L _ _ z2 hein x
        (hzarr ▸ hx)
      have hb := inner_block_abs_le_one (K * L) (zeroMeanData (K * L) ed)
        (zeroMeanData (K * L) sd) p q
      exact abs_le.mp hb
  · intro hde hds z hz x hx
    simp only [ndp_einsum, normalize_tagged] at hz
    rw [harr2] at hz
    dsimp only at hz
    cases hein : einsum_ijkl_mkl
        (⟨[I, J, K, L], normalizeData (K * L) ed⟩ : NDArray ℝ)
        ⟨[M, K, L], normalizeData (K * L) sd⟩ with
    | none =>
      rw [hein] at hz
      exact absurd hz (by simp)
    | some z2 =>
      rw [hein] at hz
      have hzarr : z.arr = z2 := by
        dsimp only at hz
        split at hz <;> injection hz with h2 <;> rw [← h2] <;> rfl
      obtain ⟨p, q, rfl⟩ := einsum_mem_entry I J M K L _ _ z2 hein x
        (hzarr ▸ hx)
      constructor
      · refine Finset.sum_nonneg fun t _ => mul_nonneg ?_ ?_
        · exact normalizeData_getD_nonneg _ _ hde _
        · exact normalizeData_getD_nonneg _ _ hds _
      · exact (abs_le.mp (inner_block_abs_le_one (K * L) ed sd p q)).2

/-- C5 witness: the bounds applied at a concrete one-pattern input,
with both metric outcomes evaluated explicitly and every hypothesis
discharged. -/
theorem C5_zncc_ndp_bounds_witness :
    ((-1 : ℝ) ≤ 0 ∧ (0 : ℝ) ≤ 1) ∧ ((0 : ℝ) ≤ 0 ∧ (0 : ℝ) ≤ 1) := by
  have hgetD : ∀ i : ℕ, ([(0 : ℝ)]).getD i 0 = 0 := by
    intro i
    cases i <;> simp [List.getD]
  have hz0 : ∀ S : ℕ, zeroMeanData S [(0 : ℝ)] = [0] := by
    intro S
    simp [zeroMeanData, mapWithIdx, blockMean, blockSum, hgetD]
  have hn0 : ∀ S : ℕ, normalizeData S [(0 : ℝ)] = [0] := by
    intro S
    simp [normalizeData, mapWithIdx, hgetD]
  have h1 : zero_mean (⟨[1, 1, 1, 1], [0]⟩ : NDArray ℝ) ⟨[1, 1, 1], [0]⟩ false =
      ((⟨[1, 1, 1, 1], [0]⟩ : NDArray ℝ), (⟨[1, 1, 1], [0]⟩ : NDArray ℝ)) := by
    rw [zero_mean_nested_of_ranks_eq (⟨[1, 1, 1, 1], [0]⟩ : NDArray ℝ)
      ⟨[1, 1, 1], [0]⟩ rfl rfl]
    simp only [hz0]
  have h2 : normalize (⟨[1, 1, 1, 1], [0]⟩ : NDArray ℝ) ⟨[1, 1, 1], [0]⟩ false =
      ((⟨[1, 1, 1, 1], [0]⟩ : NDArray ℝ), (⟨[1, 1, 1], [0]⟩ : NDArray ℝ)) := by
    rw [normalize_nested_of_ranks_eq (⟨[1, 1, 1, 1], [0]⟩ : NDArray ℝ)
      ⟨[1, 1, 1], [0]⟩ rfl rfl]
    simp only [hn0]
  have hein : einsum_ijkl_mkl (⟨[1, 1, 1, 1], [0]⟩ : NDArray ℝ)
      ⟨[1, 1, 1], [0]⟩ = some ⟨[1, 1, 1], [0]⟩ := by
    simp [einsum_ijkl_mkl, hgetD, List.range_succ]
  have hzncc : zncc_einsum ⟨false, ⟨[1, 1, 1, 1], [0]⟩⟩
      ⟨false, ⟨[1, 1, 1], [0]⟩⟩ = some ⟨false, ⟨[1, 1, 1], [0]⟩⟩ := by
    simp only [zncc_einsum, zero_mean_tagged, normalize_tagged, h1]
    try dsimp only
    rw [h2]
    try dsimp only
    rw [hein]
    simp [compute]
  have hndp : ndp_einsum ⟨false, ⟨[1, 1, 1, 1], [0]⟩⟩
      ⟨false, ⟨[1, 1, 1], [0]⟩⟩ = some ⟨false, ⟨[1, 1, 1], [0]⟩⟩ := by
    simp only [ndp_einsum, normalize_tagged, h2]
    try dsimp only
    rw [hein]
    simp [compute]
  constructor
  · exact (C5_zncc_ndp_bounds [0] [0] false false 1 1 1 1 1).1
      ⟨false, ⟨[1, 1, 1], [0]⟩⟩ hzncc 0 (by simp)
  · exact (C5_zncc_ndp_bounds [0] [0] false false 1 1 1 1 1).2
      (by intro v hv; simp at hv; simp [hv])
      (by intro v hv; simp at hv; simp [hv])
      ⟨false, ⟨[1, 1, 1], [0]⟩⟩ hndp 0 (by simp)

end Kikuchipy
